import Mathlib

/-!
Verification of the T-Watch S3 clock firmware (`src/Watch/src/main.cpp`).

The program is a minimal Arduino-style firmware: `setup()` initializes the
hardware abstraction (`watch.begin()`), stalls forever on failure, optionally
reports PSRAM and pulses the haptic motor, then builds a single LVGL label;
`loop()` reads the RTC, renders `"%02d:%02d:%02d"` into a 16-byte static
buffer with `snprintf`, sets the label text, calls `lv_timer_handler()` and
delays 1000 ms.

We embed the C formatting (`snprintf(buf, sizeof buf, "%02d:%02d:%02d", ...)`
with exact C `%02d` semantics: minimum field width 2, zero padding after the
sign, truncation of the whole output to `sizeof buf - 1` characters plus a
null terminator) and the control flow of `setup`/`loop` as an event-emitting
state machine parameterised by the hardware environment.
-/

namespace Watch

/-- Fuel-driven digit extraction: prepends the decimal digits of `n` to
`acc`, least significant digit first into the accumulator, so the result
lists them most significant first. -/
def natDigitsAux : Nat → Nat → List Char → List Char
  | 0, _, acc => acc
  | fuel + 1, n, acc =>
    if n < 10 then Nat.digitChar n :: acc
    else natDigitsAux fuel (n / 10) (Nat.digitChar (n % 10) :: acc)

/-- Decimal digit characters of a natural number, most significant first,
as produced by C `printf` (`0` renders as `"0"`); `n + 1` units of fuel
always suffice since `n < 10 ^ (n + 1)`. -/
def natDigits (n : Nat) : List Char :=
  natDigitsAux (n + 1) n []

/-- Rendering of one `%02d` conversion of a C `int`: the sign (for negative
values), then zero padding up to a total field width of 2, then the decimal
digits of the magnitude.  C field width is a minimum, so values with three or
more digits widen the field. -/
def fmt02 (n : Int) : List Char :=
  let body := natDigits n.natAbs
  let signLen : Nat := if n < 0 then 1 else 0
  let pad := List.replicate (2 - (body.length + signLen)) '0'
  (if n < 0 then ['-'] else []) ++ (pad ++ body)

/-- The untruncated rendering of `"%02d:%02d:%02d"` applied to the three
`int` fields read from the RTC. -/
def formatted (h m s : Int) : List Char :=
  fmt02 h ++ ':' :: (fmt02 m ++ ':' :: fmt02 s)

/-- The C string left in `buf` by
`snprintf(buf, sizeof(buf), "%02d:%02d:%02d", now.hour, now.minute, now.second)`
with `sizeof(buf) = 16`: the formatted output truncated to at most 15
characters; `snprintf` then appends the null terminator. -/
def snprintfBuf (h m s : Int) : List Char :=
  (formatted h m s).take 15

/-- The byte content `snprintf` actually stores in the 16-byte buffer: the
(possibly truncated) characters followed by the null terminator. -/
def snprintfBytes (h m s : Int) : List Char :=
  snprintfBuf h m s ++ [Char.ofNat 0]

/-- `true` exactly on 8-character strings of shape `\d\d:\d\d:\d\d`. -/
def matchesHHMMSS : List Char → Bool
  | [a, b, c, d, e, f, g, i] =>
      a.isDigit && b.isDigit && (c == ':') && d.isDigit && e.isDigit &&
      (f == ':') && g.isDigit && i.isDigit
  | _ => false

theorem natDigitsAux_length_le (fuel : Nat) :
    ∀ (n : Nat) (acc : List Char),
      acc.length ≤ (natDigitsAux fuel n acc).length := by
  induction fuel with
  | zero => intro n acc; simp [natDigitsAux]
  | succ f ih =>
    intro n acc
    by_cases h : n < 10
    · simp [natDigitsAux, h]
    · simp only [natDigitsAux]
      rw [if_neg h]
      have h1 := ih (n / 10) (Nat.digitChar (n % 10) :: acc)
      simp at h1
      omega

theorem natDigitsAux_small (fuel n : Nat) (acc : List Char) (hf : 1 ≤ fuel)
    (h : n < 10) : natDigitsAux fuel n acc = Nat.digitChar n :: acc := by
  obtain ⟨f, rfl⟩ : ∃ f, fuel = f + 1 := ⟨fuel - 1, by omega⟩
  simp [natDigitsAux, h]

theorem natDigits_length_pos (n : Nat) : 0 < (natDigits n).length := by
  unfold natDigits
  by_cases h : n < 10
  · rw [natDigitsAux_small _ _ _ (by omega) h]
    simp
  · simp only [natDigitsAux]
    rw [if_neg h]
    have h1 := natDigitsAux_length_le n (n / 10) [Nat.digitChar (n % 10)]
    simp at h1
    omega

theorem natDigits_lt10 (n : Nat) (h : n < 10) :
    natDigits n = [Nat.digitChar n] := by
  unfold natDigits
  exact natDigitsAux_small _ _ _ (by omega) h

theorem natDigits_lt100 (n : Nat) (h10 : 10 ≤ n) (h : n < 100) :
    natDigits n = [Nat.digitChar (n / 10), Nat.digitChar (n % 10)] := by
  obtain ⟨m, rfl⟩ : ∃ m, n = m + 1 := ⟨n - 1, by omega⟩
  have hn : ¬ (m + 1 < 10) := by omega
  unfold natDigits
  simp only [natDigitsAux]
  rw [if_neg hn, natDigitsAux_small _ _ _ (by omega) (by omega)]
  rw [if_pos (by omega : (m + 1) / 10 < 10)]

theorem fmt02_coe (k : Nat) :
    fmt02 (k : Int) =
      List.replicate (2 - (natDigits k).length) '0' ++ natDigits k := by
  have hneg : ¬ ((k : Int) < 0) := by omega
  simp [fmt02, hneg]

theorem digitChar_isDigit (k : Nat) (h : k < 10) :
    (Nat.digitChar k).isDigit = true := by
  have hall : ∀ j : Fin 10, (Nat.digitChar (j : Nat)).isDigit = true := by decide
  exact hall ⟨k, h⟩

theorem fmt02_two_digit (k : Nat) (h : k < 100) :
    fmt02 (k : Int) = [Nat.digitChar (k / 10), Nat.digitChar (k % 10)] := by
  rw [fmt02_coe]
  by_cases h10 : k < 10
  · rw [natDigits_lt10 k h10]
    have hd : k / 10 = 0 := by omega
    have hm : k % 10 = k := by omega
    simp [hd, hm, List.replicate, Nat.digitChar]
  · rw [natDigits_lt100 k (by omega) h]
    simp

theorem fmt02_length_ge_two (n : Int) : 2 ≤ (fmt02 n).length := by
  unfold fmt02
  have hb := natDigits_length_pos n.natAbs
  by_cases hneg : n < 0 <;> simp [hneg] <;> omega

/-- Hardware environment the firmware runs against: whether `watch.begin()`
succeeds, whether `psramFound()` is true, whether the `watch.motor` handle is
non-null, and the (hour, minute, second) triple `watch.rtc->getDateTime()`
returns at the k-th read. -/
structure HwConfig where
  beginOk : Bool
  psram : Bool
  motorPresent : Bool
  rtc : Nat → Int × Int × Int

/-- Observable actions of the firmware, in program order. -/
inductive Event where
  | serialBegin (baud : Nat)
  | serialLine (msg : String)
  | hwBegin (ok : Bool)
  | motorPulse (ms : Nat)
  | screenClean
  | labelCreate
  | setFont
  | center
  | setText (content : List Char)
  | rtcRead (h m s : Int)
  | bufWrite (content : List Char)
  | timerHandler
  | delay (ms : Nat)
  deriving DecidableEq, Repr

/-- Control phase after `setup`: stuck in the `while (true) delay(100);`
stall loop, or running the Arduino `loop`. -/
inductive Phase where
  | stalled
  | running
  deriving DecidableEq, Repr

/-- The firmware's own mutable state: control phase, the `clock_label`
widget handle, its current text, and the contents of the static `buf`. -/
structure SysState where
  phase : Phase
  label : Option Nat
  labelText : List Char
  buf : List Char
  deriving DecidableEq, Repr

/-- Events emitted by `setup()`, in order. -/
def setupEvents (cfg : HwConfig) : List Event :=
  [Event.serialBegin 115200,
   Event.serialLine "T-Watch S3 (PlatformIO) boot",
   Event.hwBegin cfg.beginOk] ++
  if cfg.beginOk then
    (if cfg.psram then [Event.serialLine "PSRAM OK"] else []) ++
    (if cfg.motorPresent then [Event.motorPulse 30] else []) ++
    [Event.screenClean, Event.labelCreate, Event.setFont, Event.center,
     Event.setText ("Starting…".toList)]
  else
    [Event.serialLine "watch.begin() failed"]

/-- State after `setup()` returns (or, on `begin` failure, the stalled
state `setup` never leaves). -/
def setupState (cfg : HwConfig) : SysState :=
  if cfg.beginOk then
    { phase := Phase.running, label := some 0,
      labelText := "Starting…".toList, buf := [] }
  else
    { phase := Phase.stalled, label := none, labelText := [], buf := [] }

/-- Events emitted by the k-th call of `loop()`, in order: RTC read,
`snprintf` into `buf`, `lv_label_set_text`, `lv_timer_handler`, `delay`. -/
def loopEvents (cfg : HwConfig) (k : Nat) : List Event :=
  let t := cfg.rtc k
  [Event.rtcRead t.1 t.2.1 t.2.2,
   Event.bufWrite (snprintfBuf t.1 t.2.1 t.2.2),
   Event.setText (snprintfBuf t.1 t.2.1 t.2.2),
   Event.timerHandler, Event.delay 1000]

/-- State change of the k-th call of `loop()`: `buf` is overwritten in place
and the label text replaced; the widget handle and phase are untouched. -/
def loopStep (cfg : HwConfig) (k : Nat) (st : SysState) : SysState :=
  let t := cfg.rtc k
  { st with buf := snprintfBuf t.1 t.2.1 t.2.2,
            labelText := snprintfBuf t.1 t.2.1 t.2.2 }

/-- State after `setup` and n further steps: when running, each step is one
`loop()` call; when stalled, each step is one turn of the stall loop (which
changes nothing). -/
def stepN (cfg : HwConfig) : Nat → SysState
  | 0 => setupState cfg
  | n + 1 =>
    let st := stepN cfg n
    if st.phase = Phase.running then loopStep cfg n st else st

/-- Full event trace after `setup` and n further steps: a stalled step emits
the stall loop's `delay(100)`, a running step emits the `loop()` events. -/
def traceN (cfg : HwConfig) : Nat → List Event
  | 0 => setupEvents cfg
  | n + 1 =>
    traceN cfg n ++
    (if (stepN cfg n).phase = Phase.running then loopEvents cfg n
     else [Event.delay 100])

/-- `true` on events that are not diagnostic serial output. -/
def nonSerial : Event → Bool
  | Event.serialBegin _ => false
  | Event.serialLine _ => false
  | _ => true

/-- `true` exactly on haptic motor pulse events. -/
def isPulse : Event → Bool
  | Event.motorPulse _ => true
  | _ => false

/-- `true` exactly on widget creation events. -/
def isCreate : Event → Bool
  | Event.labelCreate => true
  | _ => false

/-- The raw 16-byte `buf` array after one `snprintf` call: the written
characters and null terminator overwrite the front in place; bytes past the
terminator keep their previous values. -/
def bufArray (prev : List Char) (h m s : Int) : List Char :=
  snprintfBytes h m s ++ prev.drop (snprintfBytes h m s).length

theorem snprintfBuf_length_le (h m s : Int) :
    (snprintfBuf h m s).length ≤ 15 := by
  show ((formatted h m s).take 15).length ≤ 15
  rw [List.length_take]
  omega

theorem setupState_ok (cfg : HwConfig) (hok : cfg.beginOk = true) :
    setupState cfg =
      { phase := Phase.running, label := some 0,
        labelText := "Starting…".toList, buf := [] } := by
  simp [setupState, hok]

theorem stepN_phase_running (cfg : HwConfig) (hok : cfg.beginOk = true)
    (n : Nat) : (stepN cfg n).phase = Phase.running := by
  induction n with
  | zero => simp [stepN, setupState, hok]
  | succ n ih => simp [stepN, ih, loopStep]

theorem stepN_succ_ok (cfg : HwConfig) (hok : cfg.beginOk = true) (n : Nat) :
    stepN cfg (n + 1) = loopStep cfg n (stepN cfg n) := by
  simp [stepN, stepN_phase_running cfg hok n]

theorem stepN_stalled_eq (cfg : HwConfig) (hfail : cfg.beginOk = false)
    (n : Nat) : stepN cfg n = setupState cfg := by
  induction n with
  | zero => rfl
  | succ n ih => simp [stepN, ih, setupState, hfail]

theorem traceN_ok (cfg : HwConfig) (hok : cfg.beginOk = true) (n : Nat) :
    traceN cfg n = setupEvents cfg ++ (List.range n).flatMap (loopEvents cfg) := by
  induction n with
  | zero => simp [traceN]
  | succ n ih =>
    simp [traceN, ih, stepN_phase_running cfg hok n, List.range_succ]

theorem traceN_stalled (cfg : HwConfig) (hfail : cfg.beginOk = false)
    (n : Nat) :
    traceN cfg n = setupEvents cfg ++ List.replicate n (Event.delay 100) := by
  induction n with
  | zero => simp [traceN]
  | succ n ih =>
    have hp : (stepN cfg n).phase = Phase.stalled := by
      rw [stepN_stalled_eq cfg hfail]
      simp [setupState, hfail]
    simp [traceN, ih, hp, List.replicate_succ']

theorem snprintfBuf_inRange (a b c : Nat) (ha : a < 100) (hb : b < 100)
    (hc : c < 100) :
    snprintfBuf (a : Int) (b : Int) (c : Int) =
      [Nat.digitChar (a / 10), Nat.digitChar (a % 10), ':',
       Nat.digitChar (b / 10), Nat.digitChar (b % 10), ':',
       Nat.digitChar (c / 10), Nat.digitChar (c % 10)] := by
  unfold snprintfBuf formatted
  rw [fmt02_two_digit a ha, fmt02_two_digit b hb, fmt02_two_digit c hc]
  rfl

theorem snprintf_matches_inRange (a b c : Nat) (ha : a < 100) (hb : b < 100)
    (hc : c < 100) :
    matchesHHMMSS (snprintfBuf (a : Int) (b : Int) (c : Int)) = true := by
  rw [snprintfBuf_inRange a b c ha hb hc]
  simp [matchesHHMMSS,
    digitChar_isDigit (a / 10) (by omega), digitChar_isDigit (a % 10) (by omega),
    digitChar_isDigit (b / 10) (by omega), digitChar_isDigit (b % 10) (by omega),
    digitChar_isDigit (c / 10) (by omega), digitChar_isDigit (c % 10) (by omega)]

theorem snprintf_matches_int (h m s : Int)
    (hh0 : 0 ≤ h) (hh1 : h ≤ 23) (hm0 : 0 ≤ m) (hm1 : m ≤ 59)
    (hs0 : 0 ≤ s) (hs1 : s ≤ 59) :
    (snprintfBuf h m s).length = 8 ∧
    matchesHHMMSS (snprintfBuf h m s) = true := by
  obtain ⟨a, rfl⟩ : ∃ a : Nat, h = (a : Int) := ⟨h.toNat, by omega⟩
  obtain ⟨b, rfl⟩ : ∃ b : Nat, m = (b : Int) := ⟨m.toNat, by omega⟩
  obtain ⟨c, rfl⟩ : ∃ c : Nat, s = (c : Int) := ⟨s.toNat, by omega⟩
  refine ⟨?_, snprintf_matches_inRange a b c (by omega) (by omega) (by omega)⟩
  rw [snprintfBuf_inRange a b c (by omega) (by omega) (by omega)]
  rfl

/-- Concrete environment where everything is present and the RTC always
returns 12:34:56. -/
def cfgA : HwConfig :=
  { beginOk := true, psram := true, motorPresent := true,
    rtc := fun _ => (12, 34, 56) }

/-- Concrete environment where `watch.begin()` fails. -/
def cfgFail : HwConfig :=
  { beginOk := false, psram := false, motorPresent := false,
    rtc := fun _ => (0, 0, 0) }

/-- Specification of the stalled system: no display-construction events in
the setup trace, the state frozen at the stalled setup state forever, and
the trace extending only by the stall loop's `delay(100)` turns. -/
def StallSpec (cfg : HwConfig) : Prop :=
  (∀ e ∈ setupEvents cfg,
      e ≠ Event.screenClean ∧ e ≠ Event.labelCreate ∧ e ≠ Event.setFont ∧
      e ≠ Event.center ∧ ∀ t, e ≠ Event.setText t) ∧
  (∀ n, stepN cfg n = setupState cfg) ∧
  (∀ n, (stepN cfg n).phase = Phase.stalled) ∧
  (∀ n, traceN cfg n = setupEvents cfg ++ List.replicate n (Event.delay 100))

/-- Specification of the running refresh loop: each iteration emits, in this
order, exactly one RTC read, the `snprintf` buffer write, the label text
replacement, the graphics tick, and a 1000 ms delay; the trace after n steps
is the setup trace followed by iterations 0 through n-1 in order; and the
loop never leaves the running phase (no termination condition). -/
def LoopSpec (cfg : HwConfig) : Prop :=
  (∀ k, loopEvents cfg k =
     [Event.rtcRead (cfg.rtc k).1 (cfg.rtc k).2.1 (cfg.rtc k).2.2,
      Event.bufWrite (snprintfBuf (cfg.rtc k).1 (cfg.rtc k).2.1 (cfg.rtc k).2.2),
      Event.setText (snprintfBuf (cfg.rtc k).1 (cfg.rtc k).2.1 (cfg.rtc k).2.2),
      Event.timerHandler, Event.delay 1000]) ∧
  (∀ n, traceN cfg n =
     setupEvents cfg ++ (List.range n).flatMap (loopEvents cfg)) ∧
  (∀ n, (stepN cfg n).phase = Phase.running)

/-- Specification of the display buffer invariant: after every iteration the
buffer holds exactly the `snprintf` rendering of the triple just read, fits
in the 16-byte array together with its null terminator, and for in-range
triples is the 8-character zero-padded `HH:MM:SS` string. -/
def BufSpec (cfg : HwConfig) : Prop :=
  ∀ n, ∃ h m s, cfg.rtc n = (h, m, s) ∧
    (stepN cfg (n + 1)).buf = snprintfBuf h m s ∧
    (stepN cfg (n + 1)).buf.length + 1 ≤ 16 ∧
    (0 ≤ h → h ≤ 23 → 0 ≤ m → m ≤ 59 → 0 ≤ s → s ≤ 59 →
      (stepN cfg (n + 1)).buf.length = 8 ∧
      matchesHHMMSS ((stepN cfg (n + 1)).buf) = true)

/-- Specification of the haptic pulse during bootstrap: the setup trace
holds exactly one motor pulse when the motor handle is present and none
otherwise; deleting the pulse events yields exactly the bootstrap trace of
the motorless configuration (the rest of bootstrap is unchanged); and the
post-setup state never depends on the motor (the pulse has no checked
result). -/
def MotorSpec (cfg : HwConfig) : Prop :=
  ((setupEvents cfg).filter isPulse =
     if cfg.motorPresent then [Event.motorPulse 30] else []) ∧
  ((setupEvents cfg).filter (fun e => ! isPulse e) =
     setupEvents { cfg with motorPresent := false }) ∧
  setupState cfg = setupState { cfg with motorPresent := false }

/-- Specification of the single widget: created once during setup with the
placeholder text, handle never reassigned, loop iterations emit no widget
creation (the source has no widget-destruction call at all, so no such event
exists), and after each iteration the label text is the formatted time — in
particular the placeholder is gone after the first iteration. -/
def WidgetSpec (cfg : HwConfig) : Prop :=
  (setupState cfg).label = some 0 ∧
  (setupState cfg).labelText = "Starting…".toList ∧
  (setupEvents cfg).filter isCreate = [Event.labelCreate] ∧
  (∀ n, (stepN cfg n).label = some 0) ∧
  (∀ k, (loopEvents cfg k).filter isCreate = []) ∧
  (∀ n, ∃ h m s, cfg.rtc n = (h, m, s) ∧
      (stepN cfg (n + 1)).labelText = snprintfBuf h m s)

/-- C1: for every (hour, minute, second) triple with hour in 0..23, minute
in 0..59, second in 0..59, the `snprintf` formatting step produces a string
of exactly 8 characters of shape `\d\d:\d\d:\d\d`; in particular (0,5,9)
yields "00:05:09" and (23,59,59) yields "23:59:59". -/
theorem C1_inRange_format (h m s : Int)
    (hh0 : 0 ≤ h) (hh1 : h ≤ 23) (hm0 : 0 ≤ m) (hm1 : m ≤ 59)
    (hs0 : 0 ≤ s) (hs1 : s ≤ 59) :
    (snprintfBuf h m s).length = 8 ∧
    matchesHHMMSS (snprintfBuf h m s) = true ∧
    snprintfBuf 0 5 9 = "00:05:09".toList ∧
    snprintfBuf 23 59 59 = "23:59:59".toList :=
  ⟨(snprintf_matches_int h m s hh0 hh1 hm0 hm1 hs0 hs1).1,
   (snprintf_matches_int h m s hh0 hh1 hm0 hm1 hs0 hs1).2,
   by decide, by decide⟩

/-- Witness for C1 at the triple (0, 5, 9). -/
theorem C1_inRange_format_witness :
    ((0 : Int) ≤ 0 ∧ (0 : Int) ≤ 23 ∧ (0 : Int) ≤ 5 ∧ (5 : Int) ≤ 59 ∧
     (0 : Int) ≤ 9 ∧ (9 : Int) ≤ 59) ∧
    ((snprintfBuf 0 5 9).length = 8 ∧
     matchesHHMMSS (snprintfBuf 0 5 9) = true ∧
     snprintfBuf 0 5 9 = "00:05:09".toList ∧
     snprintfBuf 23 59 59 = "23:59:59".toList) :=
  ⟨by decide,
   C1_inRange_format 0 5 9 (by decide) (by decide) (by decide) (by decide)
     (by decide) (by decide)⟩

/-- C2: when `watch.begin()` reports failure, `setup` emits no
display-construction event (no screen clean, label creation, font setting,
centering or text placement), the system state stays forever at the stalled
setup state, the trace extends only by the stall loop's delays — and the
stalled phase is reachable only from that failure, since after a successful
`begin` the phase is `running` forever. -/
theorem C2_stall_on_begin_failure (cfg : HwConfig)
    (hfail : cfg.beginOk = false) :
    StallSpec cfg ∧
    ∀ cfg2 : HwConfig, cfg2.beginOk = true →
      ∀ n, (stepN cfg2 n).phase ≠ Phase.stalled := by
  refine ⟨⟨?_, fun n => stepN_stalled_eq cfg hfail n, fun n => ?_,
    fun n => traceN_stalled cfg hfail n⟩, ?_⟩
  · intro e he
    simp [setupEvents, hfail] at he
    rcases he with rfl | rfl | rfl | rfl <;>
      exact ⟨by simp, by simp, by simp, by simp, fun t => by simp⟩
  · rw [stepN_stalled_eq cfg hfail n]
    simp [setupState, hfail]
  · intro cfg2 h2 n
    rw [stepN_phase_running cfg2 h2 n]
    simp

/-- Witness for C2 at the concrete failing configuration `cfgFail`. -/
theorem C2_stall_witness :
    cfgFail.beginOk = false ∧
    (StallSpec cfgFail ∧
     ∀ cfg2 : HwConfig, cfg2.beginOk = true →
       ∀ n, (stepN cfg2 n).phase ≠ Phase.stalled) :=
  ⟨rfl, C2_stall_on_begin_failure cfgFail rfl⟩

/-- C3: once the refresh loop is entered, every iteration performs exactly
once and in order: RTC read, formatting into the fixed-width buffer, label
text replacement, graphics tick, 1000 ms delay; this repeats indefinitely
with no termination condition. -/
theorem C3_loop_iteration (cfg : HwConfig) (hok : cfg.beginOk = true) :
    LoopSpec cfg :=
  ⟨fun _ => rfl, fun n => traceN_ok cfg hok n,
   fun n => stepN_phase_running cfg hok n⟩

/-- Witness for C3 at the concrete configuration `cfgA`. -/
theorem C3_loop_iteration_witness : cfgA.beginOk = true ∧ LoopSpec cfgA :=
  ⟨rfl, C3_loop_iteration cfgA rfl⟩

/-- C4 counterexample: `%02d` is a minimum field width in C, not a maximum,
so the out-of-range hour 100 widens the hour field to three characters and
the displayed string is the nine-character "100:05:09" — refuting, at this
input, the claim that malformed field values cannot widen the fields of the
displayed string (which would keep it within the 8-character shape). -/
theorem C4_counterexample :
    snprintfBuf 100 5 9 = "100:05:09".toList ∧
    ¬ ((snprintfBuf 100 5 9).length ≤ 8) := by decide

/-- C4 amended: malformed peripheral values propagate directly into the
displayed string; each field is zero-padded to a minimum width of two, so
out-of-range values widen their field rather than being cut to two digits,
and the only truncation is the `snprintf` bound of 15 characters plus the
null terminator imposed by the 16-byte buffer. -/
theorem C4_min_width_truncation (h m s : Int) :
    ∃ fh fm fs : List Char,
      2 ≤ fh.length ∧ 2 ≤ fm.length ∧ 2 ≤ fs.length ∧
      snprintfBuf h m s = (fh ++ ':' :: (fm ++ ':' :: fs)).take 15 ∧
      (snprintfBuf h m s).length ≤ 15 :=
  ⟨fmt02 h, fmt02 m, fmt02 s, fmt02_length_ge_two h, fmt02_length_ge_two m,
   fmt02_length_ge_two s, rfl, snprintfBuf_length_le h m s⟩

/-- C5: after every refresh-loop iteration the 16-byte display buffer is
null-terminated within its fixed capacity and holds exactly the `snprintf`
rendering of the last triple read — the zero-padded 8-character `HH:MM:SS`
string whenever the triple is in range; the buffer is overwritten in place
each iteration and never grows past its capacity. -/
theorem C5_buffer_invariant (cfg : HwConfig) (hok : cfg.beginOk = true) :
    BufSpec cfg := by
  intro n
  refine ⟨(cfg.rtc n).1, (cfg.rtc n).2.1, (cfg.rtc n).2.2, rfl, ?_, ?_, ?_⟩
  · rw [stepN_succ_ok cfg hok n]
    rfl
  · rw [stepN_succ_ok cfg hok n]
    have hle := snprintfBuf_length_le (cfg.rtc n).1 (cfg.rtc n).2.1 (cfg.rtc n).2.2
    simp only [loopStep]
    omega
  · intro h0 h1 h2 h3 h4 h5
    rw [stepN_succ_ok cfg hok n]
    have hm := snprintf_matches_int _ _ _ h0 h1 h2 h3 h4 h5
    exact ⟨by simpa [loopStep] using hm.1, by simpa [loopStep] using hm.2⟩

/-- Witness for C5 at the concrete configuration `cfgA`. -/
theorem C5_buffer_invariant_witness : cfgA.beginOk = true ∧ BufSpec cfgA :=
  ⟨rfl, C5_buffer_invariant cfgA rfl⟩

/-- C6: the formatting is deterministic and idempotent per fixed input: the
`snprintf` write depends only on the triple, so performing it a second time
on the buffer it just produced leaves the byte array identical. -/
theorem C6_format_idempotent (prev : List Char) (h m s : Int) :
    bufArray (bufArray prev h m s) h m s = bufArray prev h m s := by
  unfold bufArray
  rw [List.drop_left]

/-- C7: during bootstrap after successful hardware initialization, the
haptic pulse happens exactly once if and only if the motor handle is present
(capability check); with no motor the pulse is skipped and the rest of
bootstrap is unchanged, and the pulse's outcome is never consulted. -/
theorem C7_motor_pulse (cfg : HwConfig) (hok : cfg.beginOk = true) :
    MotorSpec cfg := by
  refine ⟨?_, ?_, ?_⟩ <;>
    by_cases hm : cfg.motorPresent <;> by_cases hp : cfg.psram <;>
      simp [setupEvents, setupState, isPulse, hok, hm, hp, List.filter]

/-- Witness for C7 at the concrete configuration `cfgA`. -/
theorem C7_motor_pulse_witness : cfgA.beginOk = true ∧ MotorSpec cfgA :=
  ⟨rfl, C7_motor_pulse cfgA rfl⟩

/-- C8: the PSRAM probe influences only the diagnostic serial output: for
both probe outcomes the post-setup state, all subsequent loop states, and
the non-serial part of the setup trace are identical. -/
theorem C8_psram_frame (cfg : HwConfig) (b1 b2 : Bool) :
    setupState { cfg with psram := b1 } = setupState { cfg with psram := b2 } ∧
    (∀ n, stepN { cfg with psram := b1 } n = stepN { cfg with psram := b2 } n) ∧
    (setupEvents { cfg with psram := b1 }).filter nonSerial =
      (setupEvents { cfg with psram := b2 }).filter nonSerial := by
  refine ⟨rfl, ?_, ?_⟩
  · intro n
    induction n with
    | zero => rfl
    | succ n ih =>
      simp only [stepN]
      rw [ih]
      rfl
  · cases b1 <;> cases b2 <;> by_cases hb : cfg.beginOk <;>
      by_cases hm : cfg.motorPresent <;>
        simp [setupEvents, nonSerial, hb, hm, List.filter]

/-- C9: for every int triple the RTC could return, the bounded `snprintf`
writes at most 16 bytes into the 16-byte buffer and always leaves it
null-terminated: the character part is at most 15 long and the final written
byte is the null terminator, so the write never overflows. -/
theorem C9_snprintf_bounded (h m s : Int) :
    (snprintfBytes h m s).length ≤ 16 ∧
    (snprintfBytes h m s).getLast? = some (Char.ofNat 0) ∧
    (snprintfBuf h m s).length ≤ 15 := by
  have hle := snprintfBuf_length_le h m s
  refine ⟨?_, ?_, hle⟩
  · show (snprintfBuf h m s ++ [Char.ofNat 0]).length ≤ 16
    rw [List.length_append]
    simp
    omega
  · show (snprintfBuf h m s ++ [Char.ofNat 0]).getLast? = some (Char.ofNat 0)
    exact List.getLast?_concat _

/-- C10: the widget handle is assigned exactly once during successful
bootstrap with the placeholder text, every loop iteration mutates only the
text content, and the one widget persists through all iterations with the
placeholder replaced starting from the first iteration. -/
theorem C10_single_widget (cfg : HwConfig) (hok : cfg.beginOk = true) :
    WidgetSpec cfg := by
  refine ⟨?_, ?_, ?_, ?_, ?_, ?_⟩
  · rw [setupState_ok cfg hok]
  · rw [setupState_ok cfg hok]
  · by_cases hm : cfg.motorPresent <;> by_cases hp : cfg.psram <;>
      simp [setupEvents, isCreate, hok, hm, hp, List.filter]
  · intro n
    induction n with
    | zero => simp [stepN, setupState_ok cfg hok]
    | succ n ih =>
      rw [stepN_succ_ok cfg hok n]
      simpa [loopStep] using ih
  · intro k
    simp [loopEvents, isCreate, List.filter]
  · intro n
    refine ⟨(cfg.rtc n).1, (cfg.rtc n).2.1, (cfg.rtc n).2.2, rfl, ?_⟩
    rw [stepN_succ_ok cfg hok n]
    rfl

/-- Witness for C10 at the concrete configuration `cfgA`. -/
theorem C10_single_widget_witness : cfgA.beginOk = true ∧ WidgetSpec cfgA :=
  ⟨rfl, C10_single_widget cfgA rfl⟩

end Watch
